import Mathlib

/-!
Shallow embedding of the cooldown engine, notification dispatcher and the
maintenance toggles of src/main.py (Bee Swarm Simulator notifier bot).

Time instants are modelled as integer seconds since the epoch, in UTC.
Python datetime arithmetic on timezone-aware UTC datetimes is leap-free, so a
day is exactly 86400 seconds; sub-second resolution is abstracted away (it
plays no role in any ordering fact used below).  The external collaborators
(the registration database row, channel resolution via the chat client, and
the outcome of a message send) enter as explicit parameters.
-/

namespace BeeSwarm

abbrev Key := Int × Int

/-- src/main.py line 3142: ROBO_PARTY_INTERVAL = 3 * 60 * 60 (seconds). -/
def ROBO_PARTY_INTERVAL : Int := 3 * 60 * 60

/-- src/main.py (several places): fixed numeric owner id. -/
def OWNER_ID : Int := 447812883158532106

/-- One value of the in-memory map user_party_states:
the dict holds next_party_time and sleep_until, both nullable datetimes. -/
structure PartyState where
  next_party_time : Option Int
  sleep_until : Option Int
deriving Repr, DecidableEq

/-- The in-memory map user_party_states keyed by (guild_id, user_id). -/
abbrev PartyStates := Key → Option PartyState

/-- A row of the robo_party_users table for a given (user_id, guild_id):
channel_id is nullable, is_active is a boolean. -/
structure Registration where
  channel_id : Option Int
  is_active : Bool
deriving Repr, DecidableEq

/-- Outcome of one dispatcher visit to one entry of the map. -/
inductive NotifyOutcome where
  | notSelected
  | sent
  | noRegistration
  | noChannel
  | sendFailed
deriving Repr, DecidableEq

/-- The SQL at src/main.py lines 3031-3034: the row for (user_id, guild_id)
is returned only when is_active = TRUE; the selected column is channel_id. -/
def query_active_channel (reg : Option Registration) : Option (Option Int) :=
  match reg with
  | some r => if r.is_active then some r.channel_id else none
  | none => none

/-- bot.get_channel at line 3038: a null channel_id or an unresolvable id
yields no channel.  resolvable says which ids the client can resolve. -/
def get_channel (resolvable : Int → Bool) : Option Int → Option Int
  | none => none
  | some c => if resolvable c then some c else none

/-- Lines 3024-3077 of notification_checker: the due check and the delivery
attempt for one entry.  sendOk says whether channel.send succeeds; when the
send raises, the except block at 3076 catches it and the reschedule at 3067
is never reached, so the state is returned unchanged. -/
def notify_due (reg : Option Registration) (resolvable sendOk : Int → Bool)
    (now : Int) (st : PartyState) : PartyState × NotifyOutcome :=
  match st.next_party_time with
  | some t =>
    if t ≤ now then
      match query_active_channel reg with
      | some cid =>
        match get_channel resolvable cid with
        | some c =>
          if sendOk c then
            ({ st with next_party_time := some (now + ROBO_PARTY_INTERVAL) },
             NotifyOutcome.sent)
          else (st, NotifyOutcome.sendFailed)
        | none => (st, NotifyOutcome.noChannel)
      | none => (st, NotifyOutcome.noRegistration)
    else (st, NotifyOutcome.notSelected)
  | none => (st, NotifyOutcome.notSelected)

/-- Lines 3012-3077: one full dispatcher visit to one entry, sleep gate
included.  If sleep_until is set and now < sleep_until the entry is skipped
untouched (continue at 3017); if sleep_until is set and has passed it is
cleared (line 3021) before the due check. -/
def notification_checker_step (reg : Option Registration)
    (resolvable sendOk : Int → Bool) (now : Int) (st : PartyState) :
    PartyState × NotifyOutcome :=
  match st.sleep_until with
  | some s =>
    if now < s then (st, NotifyOutcome.notSelected)
    else notify_due reg resolvable sendOk now { st with sleep_until := none }
  | none => notify_due reg resolvable sendOk now st

/-- Reply classes of the /start command. -/
inductive StartResult where
  | notInGuild
  | needAdduser
  | deactivated
  | started (next_party : Int)
deriving Repr, DecidableEq

/-- start_tracking, src/main.py lines 3163-3217: requires a registration row;
rejects a deactivated one; otherwise writes next_party_time = now + interval
and sleep_until = null into the map and reports the new time. -/
def start_tracking (reg : Option Registration) (now : Int) (states : PartyStates)
    (guild_id : Option Int) (user_id : Int) : PartyStates × StartResult :=
  match guild_id with
  | none => (states, StartResult.notInGuild)
  | some g =>
    match reg with
    | none => (states, StartResult.needAdduser)
    | some r =>
      if r.is_active then
        let next_party := now + ROBO_PARTY_INTERVAL
        (fun k => if k = (g, user_id) then some ⟨some next_party, none⟩ else states k,
         StartResult.started next_party)
      else (states, StartResult.deactivated)

/-- Reply classes of the /done command. -/
inductive DoneResult where
  | notInGuild
  | notTracking
  | completed (next_party : Int)
deriving Repr, DecidableEq

/-- party_done, src/main.py lines 3221-3254: if the key is absent from the
map it reports not-tracking and changes nothing; otherwise it overwrites only
next_party_time with now + interval. -/
def party_done (now : Int) (states : PartyStates) (guild_id : Option Int)
    (user_id : Int) : PartyStates × DoneResult :=
  match guild_id with
  | none => (states, DoneResult.notInGuild)
  | some g =>
    match states (g, user_id) with
    | none => (states, DoneResult.notTracking)
    | some st =>
      let next_party := now + ROBO_PARTY_INTERVAL
      (fun k => if k = (g, user_id)
          then some { st with next_party_time := some next_party } else states k,
       DoneResult.completed next_party)

/-- Pythonic split on the colon character, mirroring str.split of line 3321:
an empty string yields one empty piece, and separators at the ends yield
empty pieces. -/
def splitColon : List Char → List (List Char)
  | [] => [[]]
  | c :: rest =>
    if c = ':' then [] :: splitColon rest
    else
      match splitColon rest with
      | [] => [[c]]
      | h :: t => (c :: h) :: t

/-- Value of an all-digit character list; any other character fails the way
int() raises ValueError. -/
def digits_value (l : List Char) : Option Nat :=
  l.foldl (fun acc c =>
    match acc with
    | some n => if c.isDigit then some (n * 10 + (c.toNat - 48)) else none
    | none => none) (some 0)

/-- int() applied to one piece of the split (lines 3329-3330): an optional
sign followed by at least one digit; anything else raises ValueError. -/
def py_int : List Char → Option Int
  | [] => none
  | '-' :: rest =>
    match rest, digits_value rest with
    | _ :: _, some n => some (-(n : Int))
    | _, _ => none
  | '+' :: rest =>
    match rest, digits_value rest with
    | _ :: _, some n => some ((n : Int))
    | _, _ => none
  | l => (digits_value l).map (fun n => ((n : Int)))

/-- Reply classes of the /sleep command. -/
inductive SleepResult where
  | notInGuild
  | notTracking
  | invalidFormat
  | invalidTime
  | invalidInput
  | sleptUntil (wake : Int)
  | sleptFor (wake : Int)
  | neitherGiven
deriving Repr, DecidableEq

/-- now.replace(hour=H, minute=M, second=0, microsecond=0) at line 3340, on a
UTC instant in integer seconds: the most recent midnight plus the clock
offset. -/
def replace_to_clock (now : Int) (H M : Int) : Int :=
  now - now % 86400 + H * 3600 + M * 60

/-- sleep_command, src/main.py lines 3291-3395.  A None or empty until string
is falsy, selecting the duration branch; the absolute branch parses HH:MM,
range-checks it, and rolls a non-future wake time to the next day (lines
3343-3344); the duration branch fires when hours > 0 or minutes > 0 and sets
sleep_until = now + hours*3600 + minutes*60; otherwise the call is rejected.
next_party_time is never touched. -/
def sleep_command (now : Int) (states : PartyStates) (guild_id : Option Int)
    (user_id : Int) (hours minutes : Int) (until_arg : Option String) :
    PartyStates × SleepResult :=
  match guild_id with
  | none => (states, SleepResult.notInGuild)
  | some g =>
    match states (g, user_id) with
    | none => (states, SleepResult.notTracking)
    | some st =>
      let u := until_arg.getD ""
      if u.isEmpty = false then
        match splitColon u.data with
        | [hs, ms] =>
          match py_int hs, py_int ms with
          | some H, some M =>
            if 0 ≤ H ∧ H ≤ 23 ∧ 0 ≤ M ∧ M ≤ 59 then
              let wake0 := replace_to_clock now H M
              let wake := if wake0 ≤ now then wake0 + 86400 else wake0
              (fun k => if k = (g, user_id)
                  then some { st with sleep_until := some wake } else states k,
               SleepResult.sleptUntil wake)
            else (states, SleepResult.invalidTime)
          | _, _ => (states, SleepResult.invalidInput)
        | _ => (states, SleepResult.invalidFormat)
      else if hours > 0 ∨ minutes > 0 then
        let wake := now + hours * 3600 + minutes * 60
        (fun k => if k = (g, user_id)
            then some { st with sleep_until := some wake } else states k,
         SleepResult.sleptFor wake)
      else (states, SleepResult.neitherGiven)

/-- Bot presence: idle-vs-online status plus the displayed game name. -/
structure BotPresence where
  idle : Bool
  game : String
deriving Repr, DecidableEq

/-- Presence set when maintenance is enabled (lines 2944, 3524). -/
def updating_presence : BotPresence := ⟨true, "Updating..."⟩

/-- Presence set when maintenance is disabled (lines 2947, 3528). -/
def normal_presence : BotPresence := ⟨false, "Bee Swarm Simulator"⟩

/-- Observable process-wide maintenance state: the update_mode flag and the
bot presence that the two toggles keep in sync with it. -/
structure MaintState where
  update_mode : Bool
  presence : BotPresence
deriving Repr, DecidableEq

/-- HTTP replies of the web toggle. -/
inductive WebResponse where
  | redirectSorynLogin
  | redirectSorynPanel
deriving Repr, DecidableEq

/-- toggle_maintenance_mode, src/main.py lines 2933-2951: the privileged web
endpoint; rejected callers are redirected with no state change, otherwise the
flag is negated and the presence updated to match. -/
def toggle_maintenance_mode (soryn_authed : Bool) (s : MaintState) :
    MaintState × WebResponse :=
  if soryn_authed then
    let m := !s.update_mode
    ({ update_mode := m, presence := if m then updating_presence else normal_presence },
     WebResponse.redirectSorynPanel)
  else (s, WebResponse.redirectSorynLogin)

/-- toggle_update_mode, src/main.py lines 3514-3536: the owner-only hidden
chat command; a non-owner caller is silently ignored, otherwise the flag is
negated and the presence updated to match.  The boolean reports whether a
confirmation message was sent. -/
def toggle_update_mode (author_id : Int) (s : MaintState) : MaintState × Bool :=
  if author_id = OWNER_ID then
    let m := !s.update_mode
    ({ update_mode := m, presence := if m then updating_presence else normal_presence },
     true)
  else (s, false)

/-- Pages the dashboard route can serve. -/
inductive DashboardPage where
  | redirectLogin
  | maintenancePage
  | statusPage
deriving Repr, DecidableEq

/-- health_check, src/main.py lines 571-578: an unauthenticated request is
redirected to the login page; with update_mode set the maintenance page is
served, otherwise the status page. -/
def health_check (authed : Bool) (s : MaintState) : DashboardPage :=
  if authed then
    if s.update_mode then DashboardPage.maintenancePage else DashboardPage.statusPage
  else DashboardPage.redirectLogin

/-! Helper lemmas about the delivery attempt. -/

/-- The due check selects exactly the entries whose next_party_time is set
and has elapsed. -/
theorem notify_due_not_selected_iff (reg : Option Registration)
    (resolvable sendOk : Int → Bool) (now : Int) (st : PartyState) :
    (notify_due reg resolvable sendOk now st).2 ≠ NotifyOutcome.notSelected ↔
      ∃ t, st.next_party_time = some t ∧ t ≤ now := by
  obtain ⟨np, sl⟩ := st
  cases np with
  | none => simp [notify_due]
  | some t =>
    by_cases ht : t ≤ now
    · cases hq : query_active_channel reg with
      | none => simp [notify_due, ht, hq]
      | some cid =>
        cases hc : get_channel resolvable cid with
        | none => simp [notify_due, ht, hq, hc]
        | some c => by_cases hs : sendOk c <;> simp [notify_due, ht, hq, hc, hs]
    · simp [notify_due, ht]

/-- Unless a message is actually sent, the delivery attempt leaves the entry
exactly as it was. -/
theorem notify_due_fst_of_not_sent (reg : Option Registration)
    (resolvable sendOk : Int → Bool) (now : Int) (st : PartyState)
    (h : (notify_due reg resolvable sendOk now st).2 ≠ NotifyOutcome.sent) :
    (notify_due reg resolvable sendOk now st).1 = st := by
  obtain ⟨np, sl⟩ := st
  cases np with
  | none => simp [notify_due]
  | some t =>
    by_cases ht : t ≤ now
    · cases hq : query_active_channel reg with
      | none => simp [notify_due, ht, hq]
      | some cid =>
        cases hc : get_channel resolvable cid with
        | none => simp [notify_due, ht, hq, hc]
        | some c =>
          by_cases hs : sendOk c
          · exact absurd (by simp [notify_due, ht, hq, hc, hs]) h
          · simp [notify_due, ht, hq, hc, hs]
    · simp [notify_due, ht]

/-- The delivery attempt never touches sleep_until. -/
theorem notify_due_sleep_until (reg : Option Registration)
    (resolvable sendOk : Int → Bool) (now : Int) (st : PartyState) :
    (notify_due reg resolvable sendOk now st).1.sleep_until = st.sleep_until := by
  obtain ⟨np, sl⟩ := st
  cases np with
  | none => simp [notify_due]
  | some t =>
    by_cases ht : t ≤ now
    · cases hq : query_active_channel reg with
      | none => simp [notify_due, ht, hq]
      | some cid =>
        cases hc : get_channel resolvable cid with
        | none => simp [notify_due, ht, hq, hc]
        | some c => by_cases hs : sendOk c <;> simp [notify_due, ht, hq, hc, hs]
    · simp [notify_due, ht]

/-- When the registration row is missing or inactive, or the channel cannot
be resolved, the delivery attempt returns the entry unchanged with the
matching skip outcome. -/
theorem notify_due_bad (reg : Option Registration) (resolvable sendOk : Int → Bool)
    (now t : Int) (st : PartyState)
    (hdue : st.next_party_time = some t) (ht : t ≤ now)
    (hbad : query_active_channel reg = none ∨
      ∃ cid, query_active_channel reg = some cid ∧ get_channel resolvable cid = none) :
    notify_due reg resolvable sendOk now st = (st, NotifyOutcome.noRegistration) ∨
    notify_due reg resolvable sendOk now st = (st, NotifyOutcome.noChannel) := by
  rcases hbad with h | ⟨cid, h1, h2⟩
  · left; simp [notify_due, hdue, ht, h]
  · right; simp [notify_due, hdue, ht, h1, h2]

/-- For an entry that is not (or no longer) asleep, the dispatcher visit is
the delivery attempt on the entry with sleep_until cleared. -/
theorem checker_step_eq_of_awake (reg : Option Registration)
    (resolvable sendOk : Int → Bool) (now : Int) (st : PartyState)
    (h : st.sleep_until = none ∨ ∃ s, st.sleep_until = some s ∧ s ≤ now) :
    notification_checker_step reg resolvable sendOk now st
      = notify_due reg resolvable sendOk now { st with sleep_until := none } := by
  obtain ⟨np, sl⟩ := st
  rcases h with h | ⟨s, h, hle⟩
  · have hn : sl = none := by simpa using h
    subst hn
    rfl
  · have hs : sl = some s := by simpa using h
    subst hs
    have hnlt : ¬ now < s := by omega
    simp [notification_checker_step, hnlt]

/-! Claim theorems. -/

/-- Claim C1: on a dispatcher cycle at time now, an entry is selected for
notification (the visit does more than skip) if and only if its sleep_until
is null or has elapsed and its next_party_time is set and has elapsed; and
an entry whose sleep_until lies strictly in the future is skipped with no
change to its state, regardless of next_party_time. -/
theorem robo_C1 (reg : Option Registration) (resolvable sendOk : Int → Bool)
    (now : Int) (st : PartyState) :
    ((notification_checker_step reg resolvable sendOk now st).2 ≠ NotifyOutcome.notSelected ↔
      ((st.sleep_until = none ∨ ∃ s, st.sleep_until = some s ∧ s ≤ now) ∧
        ∃ t, st.next_party_time = some t ∧ t ≤ now)) ∧
    (∀ s, st.sleep_until = some s → now < s →
      notification_checker_step reg resolvable sendOk now st = (st, NotifyOutcome.notSelected)) := by
  obtain ⟨np, sl⟩ := st
  constructor
  · cases sl with
    | none =>
      simp only [notification_checker_step]
      rw [notify_due_not_selected_iff]
      simp
    | some s =>
      by_cases hs : now < s
      · have hns : ¬ s ≤ now := by omega
        simp [notification_checker_step, if_pos hs, hns]
      · have hsle : s ≤ now := by omega
        simp only [notification_checker_step, if_neg hs]
        rw [notify_due_not_selected_iff]
        simp [hsle]
  · intro s hsl hlt
    cases sl with
    | none => simp at hsl
    | some s2 =>
      simp only [Option.some.injEq] at hsl
      subst hsl
      simp [notification_checker_step, hlt]

/-- Witness for C1: a concrete entry that is past due but still asleep is
returned untouched and unselected. -/
theorem robo_C1_witness :
    notification_checker_step (some ⟨some 3, true⟩) (fun _ => true) (fun _ => true) 10
      ⟨some 5, some 20⟩ = (⟨some 5, some 20⟩, NotifyOutcome.notSelected) :=
  (robo_C1 (some ⟨some 3, true⟩) (fun _ => true) (fun _ => true) 10 ⟨some 5, some 20⟩).2
    20 rfl (by decide)

/-- Claim C2: with an active registration, start overwrites the entry with
next_party_time = now + 3 hours and sleep_until = null, leaves every other
entry alone, reports the computed time to the caller, and a repeated call
simply restarts the clock from the new now. -/
theorem robo_C2 (r : Registration) (hact : r.is_active = true) (now : Int)
    (states : PartyStates) (g : Int) (uid : Int) :
    (start_tracking (some r) now states (some g) uid).2
      = StartResult.started (now + ROBO_PARTY_INTERVAL) ∧
    (start_tracking (some r) now states (some g) uid).1 (g, uid)
      = some ⟨some (now + ROBO_PARTY_INTERVAL), none⟩ ∧
    (∀ k, k ≠ (g, uid) → (start_tracking (some r) now states (some g) uid).1 k = states k) ∧
    (∀ now2, (start_tracking (some r) now2
        (start_tracking (some r) now states (some g) uid).1 (some g) uid).1 (g, uid)
      = some ⟨some (now2 + ROBO_PARTY_INTERVAL), none⟩) := by
  refine ⟨?_, ?_, ?_, ?_⟩
  · simp [start_tracking, hact]
  · simp [start_tracking, hact]
  · intro k hk; simp [start_tracking, hact, hk]
  · intro now2; simp [start_tracking, hact]

/-- Witness for C2 at a concrete registration and empty map. -/
theorem robo_C2_witness :
    (start_tracking (some ⟨some 7, true⟩) 0 (fun _ => none) (some 1) 2).1 (1, 2)
      = some ⟨some (0 + ROBO_PARTY_INTERVAL), none⟩ :=
  (robo_C2 ⟨some 7, true⟩ rfl 0 (fun _ => none) 1 2).2.1

/-- Claim C3: complete on a key with no entry signals the not-tracking
condition and returns the map entirely unchanged. -/
theorem robo_C3 (now : Int) (states : PartyStates) (g : Int) (uid : Int)
    (h : states (g, uid) = none) :
    party_done now states (some g) uid = (states, DoneResult.notTracking) := by
  simp [party_done, h]

/-- Witness for C3 on the empty map. -/
theorem robo_C3_witness :
    party_done 0 (fun _ => none) (some 1) 2 = ((fun _ => none), DoneResult.notTracking) :=
  robo_C3 0 (fun _ => none) 1 2 rfl

/-- Claim C6: complete on an existing entry sets next_party_time to
now + 3 hours, leaves sleep_until untouched, leaves every other entry alone,
and reports the computed time. -/
theorem robo_C6 (now : Int) (states : PartyStates) (g : Int) (uid : Int)
    (st : PartyState) (h : states (g, uid) = some st) :
    (party_done now states (some g) uid).2 = DoneResult.completed (now + ROBO_PARTY_INTERVAL) ∧
    (party_done now states (some g) uid).1 (g, uid)
      = some ⟨some (now + ROBO_PARTY_INTERVAL), st.sleep_until⟩ ∧
    (∀ k, k ≠ (g, uid) → (party_done now states (some g) uid).1 k = states k) := by
  obtain ⟨np, sl⟩ := st
  refine ⟨?_, ?_, ?_⟩
  · simp [party_done, h]
  · simp [party_done, h]
  · intro k hk; simp [party_done, h, hk]

/-- Witness for C6: completing a sleeping entry keeps its sleep_until. -/
theorem robo_C6_witness :
    (party_done 100 (fun k => if k = ((1 : Int), (2 : Int)) then some ⟨some 5, some 42⟩ else none)
        (some 1) 2).1 (1, 2)
      = some ⟨some (100 + ROBO_PARTY_INTERVAL), some 42⟩ :=
  (robo_C6 100 (fun k => if k = ((1 : Int), (2 : Int)) then some ⟨some 5, some 42⟩ else none)
    1 2 ⟨some 5, some 42⟩ (by simp)).2.1

/-- Counterexample to claim C4 as stated: at now = 100, with a due entry
(next_party_time = 0, not sleeping), an active registration whose channel 5
resolves, and a failing send, the dispatcher records the failure but does NOT
reschedule — next_party_time stays 0 instead of becoming now + 3 hours, so
the same occurrence IS retried on the next cycle. -/
theorem robo_C4_counterexample :
    (notification_checker_step (some ⟨some 5, true⟩) (fun _ => true) (fun _ => false) 100
        ⟨some 0, none⟩).2 = NotifyOutcome.sendFailed ∧
    (notification_checker_step (some ⟨some 5, true⟩) (fun _ => true) (fun _ => false) 100
        ⟨some 0, none⟩).1.next_party_time = some 0 ∧
    ¬ (notification_checker_step (some ⟨some 5, true⟩) (fun _ => true) (fun _ => false) 100
        ⟨some 0, none⟩).1.next_party_time = some (100 + ROBO_PARTY_INTERVAL) := by
  decide

/-- Claim C4 amended: when the dispatcher attempts delivery of a due
notification and the send to the resolved channel fails, the failure is
recorded and the entry is left entirely unchanged — next_party_time is NOT
rescheduled to now + 3 hours — so the same occurrence is selected and
retried again on every subsequent cycle. -/
theorem robo_C4_amended (reg : Option Registration) (resolvable sendOk : Int → Bool)
    (now t cid : Int) (st : PartyState)
    (h1 : st.sleep_until = none) (h2 : st.next_party_time = some t) (h3 : t ≤ now)
    (h4 : query_active_channel reg = some (some cid)) (h5 : resolvable cid = true)
    (h6 : sendOk cid = false) :
    notification_checker_step reg resolvable sendOk now st = (st, NotifyOutcome.sendFailed) ∧
    ∀ now2, now ≤ now2 →
      (notification_checker_step reg resolvable sendOk now2 st).2
        ≠ NotifyOutcome.notSelected := by
  constructor
  · simp [notification_checker_step, h1, notify_due, h2, h3, h4, get_channel, h5, h6]
  · intro now2 hle
    have hstep : notification_checker_step reg resolvable sendOk now2 st
        = notify_due reg resolvable sendOk now2 st := by
      simp [notification_checker_step, h1]
    rw [hstep, notify_due_not_selected_iff]
    exact ⟨t, h2, by omega⟩

/-- Witness for the amended C4 at the counterexample input, including a later
cycle at now = 160 on which the entry is selected again. -/
theorem robo_C4_amended_witness :
    notification_checker_step (some ⟨some 5, true⟩) (fun _ => true) (fun _ => false) 100
      ⟨some 0, none⟩ = (⟨some 0, none⟩, NotifyOutcome.sendFailed) ∧
    (notification_checker_step (some ⟨some 5, true⟩) (fun _ => true) (fun _ => false) 160
      ⟨some 0, none⟩).2 ≠ NotifyOutcome.notSelected := by
  have h := robo_C4_amended (some ⟨some 5, true⟩) (fun _ => true) (fun _ => false) 100 0 5
    ⟨some 0, none⟩ rfl rfl (by decide) (by decide) rfl rfl
  exact ⟨h.1, h.2 160 (by decide)⟩

/-- Claim C5: a due entry whose registration row is missing or inactive, or
whose delivery channel cannot be resolved, gets no message and keeps its
next_party_time, so on every later cycle it is selected as due again and
again not delivered — no silent auto-resolution, and never a message for an
inactive registration. -/
theorem robo_C5 (reg : Option Registration) (resolvable sendOk : Int → Bool)
    (now t : Int) (st : PartyState)
    (hsleep : st.sleep_until = none ∨ ∃ s, st.sleep_until = some s ∧ s ≤ now)
    (hdue : st.next_party_time = some t) (ht : t ≤ now)
    (hbad : query_active_channel reg = none ∨
      ∃ cid, query_active_channel reg = some cid ∧ get_channel resolvable cid = none) :
    (notification_checker_step reg resolvable sendOk now st).2 ≠ NotifyOutcome.sent ∧
    (notification_checker_step reg resolvable sendOk now st).1.next_party_time
      = st.next_party_time ∧
    ∀ now2, now ≤ now2 →
      (notification_checker_step reg resolvable sendOk now2
          (notification_checker_step reg resolvable sendOk now st).1).2
        ≠ NotifyOutcome.notSelected ∧
      (notification_checker_step reg resolvable sendOk now2
          (notification_checker_step reg resolvable sendOk now st).1).2
        ≠ NotifyOutcome.sent := by
  have hstep := checker_step_eq_of_awake reg resolvable sendOk now st hsleep
  have hdue2 : ({ st with sleep_until := none } : PartyState).next_party_time = some t := by
    simpa using hdue
  have key : ∀ now2, t ≤ now2 →
      notify_due reg resolvable sendOk now2 { st with sleep_until := none }
          = ({ st with sleep_until := none }, NotifyOutcome.noRegistration) ∨
      notify_due reg resolvable sendOk now2 { st with sleep_until := none }
          = ({ st with sleep_until := none }, NotifyOutcome.noChannel) :=
    fun now2 h2 => notify_due_bad reg resolvable sendOk now2 t _ hdue2 h2 hbad
  rcases key now ht with h | h <;>
  · rw [hstep, h]
    refine ⟨by simp, by simp, ?_⟩
    intro now2 hle
    have hstep2 := checker_step_eq_of_awake reg resolvable sendOk now2
      ({ st with sleep_until := none }) (Or.inl (by simp))
    have hself : ({ { st with sleep_until := none } with sleep_until := none } : PartyState)
        = { st with sleep_until := none } := by simp
    rw [hself] at hstep2
    rcases key now2 (by omega) with h2 | h2 <;> simp [hstep2, h2]

/-- Witness for C5: a due entry with no registration row at all is skipped
and remains due. -/
theorem robo_C5_witness :
    (notification_checker_step none (fun _ => true) (fun _ => true) 50
        ⟨some 10, none⟩).2 ≠ NotifyOutcome.sent ∧
    (notification_checker_step none (fun _ => true) (fun _ => true) 50
        ⟨some 10, none⟩).1.next_party_time = some 10 := by
  have h := robo_C5 none (fun _ => true) (fun _ => true) 50 10 ⟨some 10, none⟩
    (Or.inl rfl) rfl (by decide) (Or.inl rfl)
  exact ⟨h.1, h.2.1.trans rfl⟩

/-- Claim C7: in the absolute-time form with a valid HH:MM UTC clock time, a
clock time that has already passed today (computed wake time ≤ now) is rolled
to the next day; the stored sleep_until is in every case strictly after now;
next_party_time is not modified and no other entry changes. -/
theorem robo_C7 (now : Int) (states : PartyStates) (g uid : Int) (st : PartyState)
    (hours minutes : Int) (s : String) (hst : states (g, uid) = some st)
    (hemp : s.isEmpty = false) (hs2 ms2 : List Char)
    (hsplit : splitColon s.data = [hs2, ms2])
    (H M : Int) (hH : py_int hs2 = some H) (hM : py_int ms2 = some M)
    (hH0 : 0 ≤ H) (hH23 : H ≤ 23) (hM0 : 0 ≤ M) (hM59 : M ≤ 59) :
    (sleep_command now states (some g) uid hours minutes (some s)).2
      = SleepResult.sleptUntil
          (if replace_to_clock now H M ≤ now then replace_to_clock now H M + 86400
           else replace_to_clock now H M) ∧
    (sleep_command now states (some g) uid hours minutes (some s)).1 (g, uid)
      = some ⟨st.next_party_time,
          some (if replace_to_clock now H M ≤ now then replace_to_clock now H M + 86400
                else replace_to_clock now H M)⟩ ∧
    (∀ k, k ≠ (g, uid) →
      (sleep_command now states (some g) uid hours minutes (some s)).1 k = states k) ∧
    now < (if replace_to_clock now H M ≤ now then replace_to_clock now H M + 86400
           else replace_to_clock now H M) ∧
    (replace_to_clock now H M ≤ now →
      (if replace_to_clock now H M ≤ now then replace_to_clock now H M + 86400
       else replace_to_clock now H M) = replace_to_clock now H M + 86400) := by
  have hcond : 0 ≤ H ∧ H ≤ 23 ∧ 0 ≤ M ∧ M ≤ 59 := ⟨hH0, hH23, hM0, hM59⟩
  refine ⟨?_, ?_, ?_, ?_, ?_⟩
  · simp [sleep_command, hst, hemp, hsplit, hH, hM, hcond]
  · simp [sleep_command, hst, hemp, hsplit, hH, hM, hcond]
  · intro k hk; simp [sleep_command, hst, hemp, hsplit, hH, hM, hcond, hk]
  · unfold replace_to_clock
    split <;> omega
  · intro hw; simp [hw]

/-- Witness for C7: at now = 50000 (13:53:20 UTC) asking for 01:00 rolls to
the next day, 90000, and keeps next_party_time. -/
theorem robo_C7_witness :
    (sleep_command 50000 (fun _ => some ⟨some 7, none⟩) (some 1) 2 0 0 (some "01:00")).2
      = SleepResult.sleptUntil 90000 ∧
    (sleep_command 50000 (fun _ => some ⟨some 7, none⟩) (some 1) 2 0 0 (some "01:00")).1 (1, 2)
      = some ⟨some 7, some 90000⟩ := by
  have h := robo_C7 50000 (fun _ => some ⟨some 7, none⟩) 1 2 ⟨some 7, none⟩ 0 0 "01:00"
    rfl rfl (['0', '1']) (['0', '0']) (by decide) 1 0 (by decide) (by decide)
    (by decide) (by decide) (by decide) (by decide)
  constructor
  · rw [h.1]; decide
  · rw [h.2.1]; decide

/-- Claim C8: the sleep operation takes exactly one of its two forms per
call: with neither supplied (until null or empty, hours and minutes not
positive) the call is rejected with an error and changes no state; with
until supplied, the hours and minutes arguments are ignored entirely and the
duration form is never applied; without until, the absolute form is never
applied. -/
theorem robo_C8 (now : Int) (states : PartyStates) (g uid : Int) (st : PartyState)
    (hst : states (g, uid) = some st) (hours minutes : Int) (until_arg : Option String) :
    ((until_arg.getD "").isEmpty = true → hours ≤ 0 → minutes ≤ 0 →
      sleep_command now states (some g) uid hours minutes until_arg
        = (states, SleepResult.neitherGiven)) ∧
    ((until_arg.getD "").isEmpty = false → ∀ h2 m2 : Int,
      sleep_command now states (some g) uid hours minutes until_arg
        = sleep_command now states (some g) uid h2 m2 until_arg) ∧
    ((until_arg.getD "").isEmpty = true → ∀ w,
      (sleep_command now states (some g) uid hours minutes until_arg).2
        ≠ SleepResult.sleptUntil w) ∧
    ((until_arg.getD "").isEmpty = false → ∀ w,
      (sleep_command now states (some g) uid hours minutes until_arg).2
        ≠ SleepResult.sleptFor w) := by
  refine ⟨?_, ?_, ?_, ?_⟩
  · intro he hh hm
    have hng : ¬ (hours > 0 ∨ minutes > 0) := by omega
    simp [sleep_command, hst, he, hng]
  · intro he h2 m2
    simp [sleep_command, hst, he]
  · intro he w
    simp only [sleep_command, hst]
    have he2 : ((until_arg.getD "").isEmpty = false) = False := by simp [he]
    simp only [he2, if_false]
    split <;> simp
  · intro he w
    simp only [sleep_command, hst]
    have he2 : ((until_arg.getD "").isEmpty = false) = True := by simp [he]
    simp only [he2, if_true]
    rcases hsp : splitColon (until_arg.getD "").data with _ | ⟨a, _ | ⟨b, _ | ⟨c, rest⟩⟩⟩
    · simp [hsp]
    · simp [hsp]
    · rcases hpa : py_int a with _ | H
      · simp [hsp, hpa]
      · rcases hpb : py_int b with _ | M
        · simp [hsp, hpa, hpb]
        · by_cases hr : 0 ≤ H ∧ H ≤ 23 ∧ 0 ≤ M ∧ M ≤ 59 <;> simp [hsp, hpa, hpb, hr]
    · simp [hsp]

/-- Witness for C8: with no until argument and zero hours and minutes the
call is rejected and the map is returned unchanged. -/
theorem robo_C8_witness :
    sleep_command 0 (fun _ => some ⟨some 7, none⟩) (some 1) 2 0 0 none
      = ((fun _ => some ⟨some 7, none⟩), SleepResult.neitherGiven) := by
  have h := robo_C8 0 (fun _ => some ⟨some 7, none⟩) 1 2 ⟨some 7, none⟩ rfl 0 0 none
  exact h.1 rfl (by decide) (by decide)

/-- Claim C9: the owner-only hidden chat command and the privileged HTTP
endpoint toggle the same flag and presence, producing identical observable
state; after either one enables the flag, dashboard requests serve the
maintenance page, identically regardless of origin. -/
theorem robo_C9 (s : MaintState) (hoff : s.update_mode = false) :
    (toggle_maintenance_mode true s).1 = (toggle_update_mode OWNER_ID s).1 ∧
    (toggle_maintenance_mode true s).1.update_mode = true ∧
    health_check true (toggle_maintenance_mode true s).1 = DashboardPage.maintenancePage ∧
    health_check true (toggle_update_mode OWNER_ID s).1 = DashboardPage.maintenancePage := by
  refine ⟨?_, ?_, ?_, ?_⟩ <;>
    simp [toggle_maintenance_mode, toggle_update_mode, health_check, hoff]

/-- Witness for C9 starting from maintenance off with normal presence. -/
theorem robo_C9_witness :
    health_check true (toggle_maintenance_mode true ⟨false, normal_presence⟩).1
      = DashboardPage.maintenancePage ∧
    health_check true (toggle_update_mode OWNER_ID ⟨false, normal_presence⟩).1
      = DashboardPage.maintenancePage := by
  have h := robo_C9 ⟨false, normal_presence⟩ rfl
  exact ⟨h.2.2.1, h.2.2.2⟩

/-- Claim C10: the duration form is accepted whenever hours or minutes is
strictly positive, with no non-negativity check on the other component, and
stores sleep_until = now + hours*3600 + minutes*60; for hours = 1 and
minutes = -600 the stored instant is in the past, so on every subsequent
dispatcher cycle the entry is not suppressed (a due entry is still
selected). -/
theorem robo_C10 (now : Int) (states : PartyStates) (g uid : Int) (st : PartyState)
    (hst : states (g, uid) = some st) (hours minutes : Int)
    (hacc : hours > 0 ∨ minutes > 0) :
    (sleep_command now states (some g) uid hours minutes none).2
      = SleepResult.sleptFor (now + hours * 3600 + minutes * 60) ∧
    (sleep_command now states (some g) uid hours minutes none).1 (g, uid)
      = some ⟨st.next_party_time, some (now + hours * 3600 + minutes * 60)⟩ ∧
    (hours = 1 → minutes = -600 →
      now + hours * 3600 + minutes * 60 < now ∧
      ∀ now2 (reg : Option Registration) (resolvable sendOk : Int → Bool) (t : Int),
        now ≤ now2 → t ≤ now2 →
        (notification_checker_step reg resolvable sendOk now2
            ⟨some t, some (now + hours * 3600 + minutes * 60)⟩).2
          ≠ NotifyOutcome.notSelected) := by
  have hne : "".isEmpty = true := rfl
  refine ⟨?_, ?_, ?_⟩
  · simp [sleep_command, hst, hacc, hne]
  · simp [sleep_command, hst, hacc, hne]
  · rintro rfl rfl
    refine ⟨by omega, ?_⟩
    intro now2 reg resolvable sendOk t hle ht
    have hstep := checker_step_eq_of_awake reg resolvable sendOk now2
      ⟨some t, some (now + 1 * 3600 + (-600) * 60)⟩ (Or.inr ⟨_, rfl, by omega⟩)
    rw [hstep, notify_due_not_selected_iff]
    exact ⟨t, rfl, ht⟩

/-- Witness for C10: one hour minus six hundred minutes is accepted and puts
sleep_until nine hours into the past. -/
theorem robo_C10_witness :
    (sleep_command 100000 (fun _ => some ⟨some 7, none⟩) (some 1) 2 1 (-600) none).2
      = SleepResult.sleptFor (100000 + 1 * 3600 + (-600) * 60) ∧
    100000 + 1 * 3600 + (-600) * 60 < 100000 := by
  have h := robo_C10 100000 (fun _ => some ⟨some 7, none⟩) 1 2 ⟨some 7, none⟩ rfl 1 (-600)
    (Or.inl (by decide))
  exact ⟨h.1, (h.2.2 rfl rfl).1⟩

end BeeSwarm
